import Mathlib

/-!
Verification development for the Springer LLM-recommendation-system tutorial
notebooks.  Each namespace shallowly embeds the Python functions of one
notebook; machine floats are modelled by `ℚ` (or an abstract linearly
ordered field where the code mixes library math such as `log2`), Python
exceptions by `Option`/`none`, and calls into external libraries
(sklearn, torch, requests, a CLIP model) by explicit function parameters.
-/

/-- Python `np.mean` on a possibly-empty list as the notebooks use it:
the notebooks guard the empty case with `if scores else 0.0`. -/
def pyMean (l : List ℚ) : ℚ := if l = [] then 0 else l.sum / l.length

theorem pyMean_singleton (x : ℚ) : pyMean [x] = x := by
  simp [pyMean]

namespace GenEcommerce

/-!
Embedding of the metric helpers of
`src/tutorials/Chapter6/generative_ecommerce_recommendation.ipynb`:

    def precision_at_k(recommended, relevant, k):
        recommended_at_k = recommended[:k]
        return len(set(recommended_at_k) & set(relevant)) / k

    def recall_at_k(recommended, relevant, k):
        recommended_at_k = recommended[:k]
        return len(set(recommended_at_k) & set(relevant)) / len(relevant)

    def ndcg_at_k(recommended, relevant, k):
        dcg = sum([1 / (math.log2(i + 2)) for i, r in enumerate(recommended[:k]) if r in relevant])
        idcg = sum([1 / (math.log2(i + 2)) for i in range(min(len(relevant), k))])
        return dcg / idcg

Item ids are modelled by `ℕ`.  A Python division raises
`ZeroDivisionError` exactly when the divisor is zero; that is the only
exception `precision_at_k` and `recall_at_k` can raise, so they return
`Option ℚ` with `none` for the raised exception.  `ndcg_at_k` is
different: this notebook imports only `transformers`, `torch`,
`torchvision` and `PIL` — it never imports `math` — so evaluating the
discount expression `1 / (math.log2(i + 2))` raises
`NameError: name 'math' is not defined`.  A comprehension only evaluates
its element expression for items that pass its filter, and `sum([])` is
the int `0`, so each of the two sums is `0` when its comprehension is
empty and raises `NameError` at its first surviving term.  `ndcg_at_k`
therefore returns `Except PyError ℚ`, distinguishing the two exceptions;
its normal-return branch is unreachable but kept for structural
faithfulness to the source's `return dcg / idcg`. -/

/-- Python `len(set(a) & set(b))`, read operationally: deduplicate `a`
and keep the members of `b`. -/
def pySetInterCard (a b : List ℕ) : ℕ :=
  ((a.dedup).filter (fun x => x ∈ b)).length

def precision_at_k (recommended relevant : List ℕ) (k : ℕ) : Option ℚ :=
  if k = 0 then none
  else some ((pySetInterCard (recommended.take k) relevant : ℚ) / k)

def recall_at_k (recommended relevant : List ℕ) (k : ℕ) : Option ℚ :=
  if relevant.length = 0 then none
  else some ((pySetInterCard (recommended.take k) relevant : ℚ) / relevant.length)

/-- The exceptions the `ndcg_at_k` evaluation can raise: `NameError`
from the unbound name `math`, or `ZeroDivisionError` from `dcg / idcg`. -/
inductive PyError where
  | nameError
  | zeroDivisionError
deriving DecidableEq, Repr

/-- The index/item pairs surviving the filter of the `dcg` comprehension
`[1 / (math.log2(i + 2)) for i, r in enumerate(recommended[:k]) if r in relevant]`. -/
def dcgTerms (recommended relevant : List ℕ) (k : ℕ) : List (ℕ × ℕ) :=
  ((recommended.take k).enum).filter (fun p => p.2 ∈ relevant)

/-- The `dcg` sum: an empty comprehension sums to the int `0` without
evaluating any element expression; the first surviving term evaluates
`math.log2` with `math` unbound and raises `NameError`. -/
def dcg (recommended relevant : List ℕ) (k : ℕ) : Except PyError ℚ :=
  if dcgTerms recommended relevant k = [] then Except.ok 0
  else Except.error PyError.nameError

/-- The `idcg` sum over `range(min(len(relevant), k))`: `0` for the
empty range, `NameError` as soon as one term is evaluated. -/
def idcg (relevant : List ℕ) (k : ℕ) : Except PyError ℚ :=
  if min relevant.length k = 0 then Except.ok 0
  else Except.error PyError.nameError

/-- `ndcg_at_k`: evaluate `dcg`, then `idcg`, then `return dcg / idcg`,
where a zero divisor raises `ZeroDivisionError`. -/
def ndcg_at_k (recommended relevant : List ℕ) (k : ℕ) : Except PyError ℚ :=
  match dcg recommended relevant k with
  | Except.error e => Except.error e
  | Except.ok d =>
    match idcg relevant k with
    | Except.error e => Except.error e
    | Except.ok i =>
      if i = 0 then Except.error PyError.zeroDivisionError
      else Except.ok (d / i)

/-- Specification-side intersection size: the cardinality of
`set(recommended[:k]) ∩ set(relevant)` as a `Finset` intersection. -/
def specInterCard (a b : List ℕ) : ℕ := (a.toFinset ∩ b.toFinset).card

theorem pySetInterCard_eq_spec (a b : List ℕ) :
    pySetInterCard a b = specInterCard a b := by
  unfold pySetInterCard specInterCard
  have hnd : ((a.dedup).filter (fun x => decide (x ∈ b))).Nodup :=
    (List.nodup_dedup a).filter _
  rw [← List.toFinset_card_of_nodup hnd]
  congr 1
  ext x
  simp [List.mem_filter, List.mem_dedup]

theorem dcgTerms_nil_of_min_zero (recommended relevant : List ℕ) (k : ℕ)
    (h : min relevant.length k = 0) :
    dcgTerms recommended relevant k = [] := by
  unfold dcgTerms
  have h2 : relevant.length = 0 ∨ k = 0 := by omega
  rcases h2 with h2 | h2
  · have h3 : relevant = [] := List.length_eq_zero.mp h2
    subst h3
    simp
  · subst h2
    simp

theorem ndcg_at_k_raises_nameError (recommended relevant : List ℕ) (k : ℕ)
    (h : 1 ≤ min relevant.length k) :
    ndcg_at_k recommended relevant k = Except.error PyError.nameError := by
  have hmin : ¬ min relevant.length k = 0 := by omega
  unfold ndcg_at_k
  by_cases ht : dcgTerms recommended relevant k = []
  · unfold dcg idcg
    rw [if_pos ht, if_neg hmin]
  · unfold dcg
    rw [if_neg ht]

end GenEcommerce

namespace Chapter1Retrieval

/-!
Embedding of `src/tutorials/Chapter1/understanding_content_embedding_retrieval.ipynb`.

`evaluate_retrieval_metrics(retrieved_results, relevant_documents, ks)` builds
`relevant_items = set(relevant_documents)`, returns all-zero metrics when that
set is empty, and otherwise records for each cutoff `k` the precision
`sum(relevance)/k`, recall `sum(relevance)/len(relevant_items)`, an F1 value,
and `sklearn.metrics.ndcg_score` guarded by `try/except ValueError` (the
except branch records `0.0`).  Each per-`k` list receives exactly one append
and is then averaged with `np.mean`.  The external `sklearn` scorer is a
function parameter `ndcgFn`; `none` models a raised `ValueError`. -/

structure RetMetrics where
  Precision : ℚ
  Recall : ℚ
  NDCG : ℚ
  F1 : ℚ
deriving DecidableEq, Repr

/-- The 0/1 relevance marks `[1 if item in relevant_items else 0 for item in top_k_items]`. -/
def relevanceList (retrieved relevantItems : List ℕ) (k : ℕ) : List ℕ :=
  (retrieved.take k).map (fun item => if item ∈ relevantItems then 1 else 0)

/-- Python `list(range(k, 0, -1))`. -/
def predictedScores (k : ℕ) : List ℕ := (List.range k).map (fun i => k - i)

def metricsForK (ndcgFn : List ℕ → List ℕ → ℕ → Option ℚ)
    (retrieved relevantItems : List ℕ) (k : ℕ) : RetMetrics :=
  let relevance := relevanceList retrieved relevantItems k
  let precision : ℚ := (relevance.sum : ℚ) / k
  let recallV : ℚ := (relevance.sum : ℚ) / relevantItems.length
  let f1 : ℚ := if precision + recallV = 0 then 0
    else 2 * (precision * recallV) / (precision + recallV)
  let ndcg : ℚ := (ndcgFn relevance (predictedScores k) k).getD 0
  { Precision := pyMean [precision], Recall := pyMean [recallV],
    NDCG := pyMean [ndcg], F1 := pyMean [f1] }

/-- The returned dictionary `{k: {...} for k in ks}` is modelled as the
association list `ks.map (fun k => (k, ...))`; the value attached to a key
depends only on the key, so duplicate cutoffs agree with dict semantics. -/
def evaluate_retrieval_metrics (ndcgFn : List ℕ → List ℕ → ℕ → Option ℚ)
    (retrieved relevant : List ℕ) (ks : List ℕ) : List (ℕ × RetMetrics) :=
  let relevantItems := relevant.dedup
  if relevantItems.length = 0 then
    ks.map (fun k => (k, ⟨0, 0, 0, 0⟩))
  else
    ks.map (fun k => (k, metricsForK ndcgFn retrieved relevantItems k))

theorem relevanceList_sum (retrieved relevantItems : List ℕ) (k : ℕ) :
    (relevanceList retrieved relevantItems k).sum
      = (retrieved.take k).countP (fun x => x ∈ relevantItems) := by
  unfold relevanceList
  induction retrieved.take k with
  | nil => simp
  | cons x xs ih =>
    by_cases hx : x ∈ relevantItems
    · simp [List.countP_cons, hx, ih, Nat.add_comm]
    · simp [List.countP_cons, hx, ih]

theorem countP_mem_dedup (l : List ℕ) (b : List ℕ) :
    l.countP (fun x => x ∈ b.dedup) = l.countP (fun x => x ∈ b) := by
  apply List.countP_congr
  intro x _
  simp [List.mem_dedup]

/-!
Embedding of `retrieve_all(query_text, corpus, embedding_dim, topn, alpha)`.

The two score vectors come from external libraries (`rank_bm25.BM25Okapi`
applied to the tokenized corpus and query, and `cosine_similarity` of
model embeddings), so they enter the embedding as explicit arguments
`bm25Scores` and `cosineScores`, one entry per corpus document.  Floats are
modelled by `ℚ`; the measured latencies are wall-clock side outputs and are
not modelled.  `np.argsort(scores)[::-1][:topn]` is modelled as a stable
ascending argsort followed by reversal and `take topn`. -/

/-- Python `np.argsort(s)[::-1]`: indices of `s` ordered by descending score. -/
def argsortDesc (s : List ℚ) : List ℕ :=
  ((List.range s.length).mergeSort
    (fun i j => decide (s.getD i 0 ≤ s.getD j 0))).reverse

/-- Python `np.max` of a score vector (the notebook only applies it to a
non-empty corpus; the empty case is given the junk value `0`). -/
def pyMax (l : List ℚ) : ℚ :=
  match l with
  | [] => 0
  | x :: xs => xs.foldl max x

/-- The float literal `1e-8`. -/
def epsHybrid : ℚ := 1 / 100000000

/-- The hybrid score vector
`alpha * cosine_scores/(max+1e-8) + (1-alpha) * bm25_scores/(max+1e-8)`. -/
def hybridVec (alpha : ℚ) (bm25Scores cosineScores : List ℚ) : List ℚ :=
  List.zipWith
    (fun b c => alpha * (c / (pyMax cosineScores + epsHybrid))
      + (1 - alpha) * (b / (pyMax bm25Scores + epsHybrid)))
    bm25Scores cosineScores

structure MethodResult where
  indices : List ℕ
  scores : List ℚ
deriving DecidableEq, Repr

structure RetrieveAllResult where
  bm25 : MethodResult
  dense : MethodResult
  hybrid : MethodResult
deriving DecidableEq, Repr

def retrieve_all (bm25Scores cosineScores : List ℚ) (topn : ℕ) (alpha : ℚ) :
    RetrieveAllResult :=
  let bmIdx := (argsortDesc bm25Scores).take topn
  let dIdx := (argsortDesc cosineScores).take topn
  let h := hybridVec alpha bm25Scores cosineScores
  let hIdx := (argsortDesc h).take topn
  { bm25 := ⟨bmIdx, bmIdx.map (fun i => bm25Scores.getD i 0)⟩
    dense := ⟨dIdx, dIdx.map (fun i => cosineScores.getD i 0)⟩
    hybrid := ⟨hIdx, hIdx.map (fun i => h.getD i 0)⟩ }

theorem argsortDesc_perm (s : List ℚ) :
    (argsortDesc s).Perm (List.range s.length) := by
  unfold argsortDesc
  exact (List.reverse_perm _).trans (List.mergeSort_perm _ _)

theorem argsortDesc_sorted (s : List ℚ) :
    ((argsortDesc s).map (fun i => s.getD i 0)).Pairwise (fun a b => b ≤ a) := by
  unfold argsortDesc
  have hs := @List.sorted_mergeSort ℕ
    (fun i j => decide (s.getD i 0 ≤ s.getD j 0))
    (fun a b c hab hbc => by
      simp only [decide_eq_true_eq] at hab hbc ⊢
      exact le_trans hab hbc)
    (fun a b => by
      simp only [Bool.or_eq_true, decide_eq_true_eq]
      exact le_total _ _)
    (List.range s.length)
  have hrev : ((List.range s.length).mergeSort
      (fun i j => decide (s.getD i 0 ≤ s.getD j 0))).reverse.Pairwise
      (fun i j => s.getD j 0 ≤ s.getD i 0) := by
    rw [List.pairwise_reverse]
    exact hs.imp (by simp)
  exact hrev.map _ (fun a b hab => hab)

theorem take_sorted_desc (s : List ℚ) (topn : ℕ) :
    (((argsortDesc s).take topn).map (fun i => s.getD i 0)).Pairwise
      (fun a b => b ≤ a) := by
  have h := argsortDesc_sorted s
  exact h.sublist ((List.take_sublist topn (argsortDesc s)).map _)

theorem hybridVec_getD (alpha : ℚ) (b c : List ℚ) (i : ℕ)
    (hi : i < b.length) (hlen : c.length = b.length) :
    (hybridVec alpha b c).getD i 0
      = alpha * (c.getD i 0 / (pyMax c + epsHybrid))
        + (1 - alpha) * (b.getD i 0 / (pyMax b + epsHybrid)) := by
  unfold hybridVec
  have hilt : i < (List.zipWith (fun x y =>
      alpha * (y / (pyMax c + epsHybrid))
        + (1 - alpha) * (x / (pyMax b + epsHybrid))) b c).length := by
    rw [List.length_zipWith]
    omega
  rw [List.getD_eq_getElem _ _ hilt, List.getElem_zipWith,
    List.getD_eq_getElem _ _ hi, List.getD_eq_getElem _ _ (by omega)]

end Chapter1Retrieval

/-- C1: for every recommended list, non-empty relevant list, and cutoff
k ≥ 1, `precision_at_k` returns |set(recommended[:k]) ∩ set(relevant)| / k
and `recall_at_k` returns the same intersection size divided by
len(relevant); and inside `evaluate_retrieval_metrics` the Precision and
Recall recorded for each cutoff equal the sum of the 0/1 relevance marks of
the first k retrieved items divided by k and by the number of distinct
relevant items, respectively. -/
theorem C1_precision_recall_formulas (recommended relevant : List ℕ) (k : ℕ)
    (hrel : relevant ≠ []) (hk : 1 ≤ k)
    (ndcgFn : List ℕ → List ℕ → ℕ → Option ℚ) (retrieved : List ℕ)
    (ks : List ℕ) :
    GenEcommerce.precision_at_k recommended relevant k
      = some ((((recommended.take k).toFinset ∩ relevant.toFinset).card : ℚ) / k)
    ∧ GenEcommerce.recall_at_k recommended relevant k
      = some ((((recommended.take k).toFinset ∩ relevant.toFinset).card : ℚ)
          / relevant.length)
    ∧ ∀ e ∈ Chapter1Retrieval.evaluate_retrieval_metrics ndcgFn retrieved
        relevant ks,
        e.2.Precision
          = (((retrieved.take e.1).countP (fun x => x ∈ relevant) : ℚ)) / e.1
        ∧ e.2.Recall
          = (((retrieved.take e.1).countP (fun x => x ∈ relevant) : ℚ))
              / relevant.dedup.length := by
  refine ⟨?_, ?_, ?_⟩
  · unfold GenEcommerce.precision_at_k
    rw [if_neg (by omega), GenEcommerce.pySetInterCard_eq_spec]
    rfl
  · unfold GenEcommerce.recall_at_k
    rw [if_neg (fun h => hrel (List.length_eq_zero.mp h)),
      GenEcommerce.pySetInterCard_eq_spec]
    rfl
  · intro e he
    have hd0 : ¬ relevant.dedup.length = 0 := by
      intro h
      exact hrel ((List.dedup_eq_nil _).mp (List.length_eq_zero.mp h))
    simp only [Chapter1Retrieval.evaluate_retrieval_metrics, if_neg hd0] at he
    obtain ⟨k2, _, rfl⟩ := List.mem_map.mp he
    constructor
    · simp [Chapter1Retrieval.metricsForK, pyMean_singleton,
        Chapter1Retrieval.relevanceList_sum, Chapter1Retrieval.countP_mem_dedup]
    · simp [Chapter1Retrieval.metricsForK, pyMean_singleton,
        Chapter1Retrieval.relevanceList_sum, Chapter1Retrieval.countP_mem_dedup]

theorem C1_witness :
    (([5] : List ℕ) ≠ [] ∧ 1 ≤ 2)
    ∧ GenEcommerce.precision_at_k [5, 7] [5] 2
        = some (((([5, 7].take 2).toFinset ∩ ([5] : List ℕ).toFinset).card : ℚ) / 2)
    ∧ ∀ e ∈ Chapter1Retrieval.evaluate_retrieval_metrics
        (fun _ _ _ => none) [5, 7] [5] [2],
        e.2.Precision = ((([5, 7].take e.1).countP (fun x => x ∈ ([5] : List ℕ)) : ℚ)) / e.1 :=
  ⟨⟨by decide, by decide⟩,
    (C1_precision_recall_formulas [5, 7] [5] 2 (by decide) (by decide)
      (fun _ _ _ => none) [5, 7] [2]).1,
    fun e he =>
      ((C1_precision_recall_formulas [5, 7] [5] 2 (by decide) (by decide)
        (fun _ _ _ => none) [5, 7] [2]).2.2 e he).1⟩

/-- C2 (code bug): the claim says that for every recommended list,
non-empty relevant list, and cutoff k ≥ 1, `ndcg_at_k` returns DCG / IDCG
with the discount 1/log2(i+2) — and the function body spells out exactly
that formula — but the notebook never imports `math`, so on the claim's
entire scope the call raises `NameError: name 'math' is not defined`
instead of returning.  Evaluated here at the notebook's own call
`ndcg_at_k(["watch", "sunglasses"], ["watch"], 1)` (item ids numbered:
watch = 1, sunglasses = 2). -/
theorem C2_ndcg_at_k_raises_NameError_at_notebook_call :
    GenEcommerce.ndcg_at_k [1, 2] [1] 1
      = Except.error GenEcommerce.PyError.nameError :=
  GenEcommerce.ndcg_at_k_raises_nameError [1, 2] [1] 1 (by decide)

/-- C10: the generative e-commerce metric helpers do not guard their
divisors: `recall_at_k` raises ZeroDivisionError (modelled as `none`) when
relevant is empty, `ndcg_at_k` raises ZeroDivisionError when
min(len(relevant), k) = 0 — both comprehensions are then empty, so the
unimported `math` is never evaluated and the function reaches the
division 0 / 0 — and `precision_at_k` raises ZeroDivisionError when
k = 0. -/
theorem C10_metric_helpers_unguarded_divisors
    (recommended relevant : List ℕ) (k : ℕ) :
    (relevant = [] → GenEcommerce.recall_at_k recommended relevant k = none)
    ∧ (min relevant.length k = 0
        → GenEcommerce.ndcg_at_k recommended relevant k
            = Except.error GenEcommerce.PyError.zeroDivisionError)
    ∧ (k = 0 → GenEcommerce.precision_at_k recommended relevant k = none) := by
  refine ⟨?_, ?_, ?_⟩
  · intro h
    subst h
    simp [GenEcommerce.recall_at_k]
  · intro h
    unfold GenEcommerce.ndcg_at_k GenEcommerce.dcg GenEcommerce.idcg
    rw [if_pos (GenEcommerce.dcgTerms_nil_of_min_zero recommended relevant
      k h), if_pos h]
    simp
  · intro h
    subst h
    simp [GenEcommerce.precision_at_k]

theorem C10_witness :
    GenEcommerce.recall_at_k [1] [] 3 = none
    ∧ GenEcommerce.ndcg_at_k [1] [] 3
        = Except.error GenEcommerce.PyError.zeroDivisionError
    ∧ GenEcommerce.precision_at_k [1] [2] 0 = none :=
  ⟨(C10_metric_helpers_unguarded_divisors [1] [] 3).1 rfl,
    (C10_metric_helpers_unguarded_divisors [1] [] 3).2.1 (by decide),
    (C10_metric_helpers_unguarded_divisors [1] [2] 0).2.2 rfl⟩

/-- C9: when relevant_documents is empty, `evaluate_retrieval_metrics`
returns, without raising, the dictionary mapping each k in ks to all-zero
Precision, Recall, NDCG, and F1. -/
theorem C9_empty_relevant_zero_metrics
    (ndcgFn : List ℕ → List ℕ → ℕ → Option ℚ) (retrieved : List ℕ)
    (ks : List ℕ) :
    Chapter1Retrieval.evaluate_retrieval_metrics ndcgFn retrieved [] ks
      = ks.map (fun k => (k, ⟨0, 0, 0, 0⟩)) := by
  simp [Chapter1Retrieval.evaluate_retrieval_metrics]

/-- C6: `evaluate_retrieval_metrics` is a pure deterministic function of its
arguments (with the external sklearn scorer held fixed): equal argument
triples give equal metric dictionaries.  The embedding reads no state
besides its arguments and the passed-in scorer. -/
theorem C6_eval_metrics_deterministic
    (ndcgFn : List ℕ → List ℕ → ℕ → Option ℚ)
    (r1 rel1 ks1 r2 rel2 ks2 : List ℕ)
    (h1 : r1 = r2) (h2 : rel1 = rel2) (h3 : ks1 = ks2) :
    Chapter1Retrieval.evaluate_retrieval_metrics ndcgFn r1 rel1 ks1
      = Chapter1Retrieval.evaluate_retrieval_metrics ndcgFn r2 rel2 ks2 := by
  subst h1
  subst h2
  subst h3
  rfl

theorem C6_witness :
    Chapter1Retrieval.evaluate_retrieval_metrics (fun _ _ _ => none)
        [1, 2] [2] [1]
      = Chapter1Retrieval.evaluate_retrieval_metrics (fun _ _ _ => none)
        [1, 2] [2] [1] :=
  C6_eval_metrics_deterministic (fun _ _ _ => none) [1, 2] [2] [1]
    [1, 2] [2] [1] rfl rfl rfl

/-- C5: for a non-empty corpus, `retrieve_all` returns for each of bm25,
dense, and hybrid the topn document indices in descending order of that
method's score vector (the full argsort being a permutation of all document
indices), and the hybrid score vector is
alpha * dense/(max(dense)+1e-8) + (1-alpha) * bm25/(max(bm25)+1e-8)
entrywise. -/
theorem C5_retrieve_all_rankings (bm25Scores cosineScores : List ℚ)
    (topn : ℕ) (alpha : ℚ) (hne : bm25Scores ≠ [])
    (hlen : cosineScores.length = bm25Scores.length) :
    (Chapter1Retrieval.retrieve_all bm25Scores cosineScores topn alpha).bm25.indices
        = (Chapter1Retrieval.argsortDesc bm25Scores).take topn
    ∧ ((Chapter1Retrieval.retrieve_all bm25Scores cosineScores topn alpha).bm25.indices.map
        (fun i => bm25Scores.getD i 0)).Pairwise (fun a b => b ≤ a)
    ∧ (Chapter1Retrieval.argsortDesc bm25Scores).Perm
        (List.range bm25Scores.length)
    ∧ (Chapter1Retrieval.retrieve_all bm25Scores cosineScores topn alpha).dense.indices
        = (Chapter1Retrieval.argsortDesc cosineScores).take topn
    ∧ ((Chapter1Retrieval.retrieve_all bm25Scores cosineScores topn alpha).dense.indices.map
        (fun i => cosineScores.getD i 0)).Pairwise (fun a b => b ≤ a)
    ∧ (Chapter1Retrieval.argsortDesc cosineScores).Perm
        (List.range cosineScores.length)
    ∧ (Chapter1Retrieval.retrieve_all bm25Scores cosineScores topn alpha).hybrid.indices
        = (Chapter1Retrieval.argsortDesc
            (Chapter1Retrieval.hybridVec alpha bm25Scores cosineScores)).take
            topn
    ∧ ((Chapter1Retrieval.retrieve_all bm25Scores cosineScores topn alpha).hybrid.indices.map
        (fun i => (Chapter1Retrieval.hybridVec alpha bm25Scores
          cosineScores).getD i 0)).Pairwise (fun a b => b ≤ a)
    ∧ (Chapter1Retrieval.argsortDesc
        (Chapter1Retrieval.hybridVec alpha bm25Scores cosineScores)).Perm
        (List.range bm25Scores.length)
    ∧ ∀ i < bm25Scores.length,
        (Chapter1Retrieval.hybridVec alpha bm25Scores cosineScores).getD i 0
          = alpha * (cosineScores.getD i 0
              / (Chapter1Retrieval.pyMax cosineScores
                  + Chapter1Retrieval.epsHybrid))
            + (1 - alpha) * (bm25Scores.getD i 0
              / (Chapter1Retrieval.pyMax bm25Scores
                  + Chapter1Retrieval.epsHybrid)) := by
  have hhl : (Chapter1Retrieval.hybridVec alpha bm25Scores
      cosineScores).length = bm25Scores.length := by
    unfold Chapter1Retrieval.hybridVec
    rw [List.length_zipWith]
    omega
  refine ⟨rfl, Chapter1Retrieval.take_sorted_desc _ _,
    Chapter1Retrieval.argsortDesc_perm _, rfl,
    Chapter1Retrieval.take_sorted_desc _ _,
    Chapter1Retrieval.argsortDesc_perm _, rfl,
    Chapter1Retrieval.take_sorted_desc _ _, ?_, ?_⟩
  · rw [← hhl]
    exact Chapter1Retrieval.argsortDesc_perm _
  · intro i hi
    exact Chapter1Retrieval.hybridVec_getD alpha bm25Scores cosineScores i hi
      hlen

theorem C5_witness :
    (([3, 1] : List ℚ) ≠ [] ∧ ([2, 5] : List ℚ).length = ([3, 1] : List ℚ).length)
    ∧ ((Chapter1Retrieval.retrieve_all [3, 1] [2, 5] 1 (1 / 2)).bm25.indices.map
        (fun i => ([3, 1] : List ℚ).getD i 0)).Pairwise (fun a b => b ≤ a) :=
  ⟨⟨by decide, rfl⟩,
    (C5_retrieve_all_rankings [3, 1] [2, 5] 1 (1 / 2) (by decide) rfl).2.1⟩

namespace MultiModal

/-!
Embedding of `src/tutorials/Chapter6/Multi_Modal_Recommendation_Study.ipynb`.

`FeatureExtractor.get_image_embeddings(image_urls, batch_size=16)` walks the
url list in slices `image_urls[i:i+batch_size]`, downloads each url with
`requests.get(url, timeout=5)`, decodes it with
`Image.open(BytesIO(...)).convert("RGB")`, and on any exception substitutes
`Image.new("RGB", (224, 224), color=(0, 0, 0))`; each batch is embedded by
the CLIP model (one row per image, then row-wise L2-normalised) and the
batches are concatenated with `torch.cat`.

The network and the CLIP model are external effects, modelled by
parameters: `httpGet url timeout` returns the raw response bytes or `none`
for any request exception, `decodeRGB` returns the decoded RGB image or
`none` for a decode failure, and `clipEmbed` maps one image to its
(normalised) embedding row.  The embedding also returns the trace of HTTP
requests `(url, timeout)` issued, in order.  `torch.cat` on an empty batch
list raises, hence the `Option` on the rows. -/

/-- A PIL RGB image: a size and a pixel map. -/
structure Img where
  width : ℕ
  height : ℕ
  pixel : ℕ → ℕ → ℕ × ℕ × ℕ

/-- `Image.new("RGB", (224, 224), color=(0, 0, 0))`. -/
def blankImage : Img := ⟨224, 224, fun _ _ => (0, 0, 0)⟩

/-- Python slicing loop `for i in range(0, len(l), bs): l[i:i+bs]`
(defined for `bs > 0`; for `bs = 0` Python `range` raises and the model
returns no batches). -/
def pyChunks {β : Type*} (bs : ℕ) (l : List β) : List (List β) :=
  if h : bs = 0 then []
  else
    match l with
    | [] => []
    | x :: xs => (x :: xs).take bs :: pyChunks bs ((x :: xs).drop bs)
termination_by l.length
decreasing_by
  simp only [List.length_drop, List.length_cons]
  omega

/-- One url of the download loop body: issue `requests.get(url, timeout=5)`,
decode, and fall back to the blank placeholder on any exception.  The first
component records the HTTP request that was issued. -/
def fetchImage {Raw : Type*} (httpGet : String → ℕ → Option Raw)
    (decodeRGB : Raw → Option Img) (url : String) : (String × ℕ) × Img :=
  ((url, 5), ((httpGet url 5).bind decodeRGB).getD blankImage)

/-- One batch: download/decode every url of the slice, then embed the
images with the CLIP model (one row per image). -/
def processBatch {Raw Emb : Type*} (httpGet : String → ℕ → Option Raw)
    (decodeRGB : Raw → Option Img) (clipEmbed : Img → Emb)
    (batch : List String) : List (String × ℕ) × List Emb :=
  let loaded := batch.map (fetchImage httpGet decodeRGB)
  (loaded.map Prod.fst, (loaded.map Prod.snd).map clipEmbed)

/-- `FeatureExtractor.get_image_embeddings`: the request trace together
with the concatenated embedding rows (`none` models the `torch.cat`
failure on an empty batch list). -/
def get_image_embeddings {Raw Emb : Type*} (httpGet : String → ℕ → Option Raw)
    (decodeRGB : Raw → Option Img) (clipEmbed : Img → Emb)
    (urls : List String) (bs : ℕ) : List (String × ℕ) × Option (List Emb) :=
  let bat := (pyChunks bs urls).map (processBatch httpGet decodeRGB clipEmbed)
  ((bat.map Prod.fst).flatten,
    if bat.isEmpty then none else some ((bat.map Prod.snd).flatten))

theorem pyChunks_flatten_map {β γ : Type*} (f : β → γ) (bs : ℕ)
    (hbs : 0 < bs) (l : List β) :
    ((pyChunks bs l).map (fun b => b.map f)).flatten = l.map f := by
  have key : ∀ (n : ℕ) (l2 : List β), l2.length ≤ n →
      ((pyChunks bs l2).map (fun b => b.map f)).flatten = l2.map f := by
    intro n
    induction n with
    | zero =>
      intro l2 hl2
      have h2 : l2 = [] := List.length_eq_zero.mp (by omega)
      subst h2
      rw [pyChunks.eq_def]
      simp [hbs.ne']
    | succ m ih =>
      intro l2 hl2
      rw [pyChunks.eq_def]
      match l2, hl2 with
      | [], _ => simp [hbs.ne']
      | x :: xs, hl2 =>
        simp only [dif_neg hbs.ne', List.map_cons, List.flatten_cons]
        rw [ih ((x :: xs).drop bs) (by
          simp only [List.length_drop, List.length_cons]
          simp only [List.length_cons] at hl2
          omega)]
        rw [← List.map_append, List.take_append_drop]
        rfl
  exact key l.length l le_rfl

theorem pyChunks_ne_nil {β : Type*} (bs : ℕ) (hbs : 0 < bs) (l : List β)
    (hl : l ≠ []) : pyChunks bs l ≠ [] := by
  rw [pyChunks.eq_def]
  match l, hl with
  | x :: xs, _ => simp [hbs.ne']

end MultiModal

/-- C3: in `FeatureExtractor.get_image_embeddings`, every image URL is
fetched with a per-request HTTP timeout of 5 seconds; any URL whose
download or decode fails gets the 224x224 all-black RGB placeholder; the
method returns exactly one embedding row per input URL and no download or
decode failure propagates out. -/
theorem C3_get_image_embeddings_total {Raw Emb : Type*}
    (httpGet : String → ℕ → Option Raw) (decodeRGB : Raw → Option MultiModal.Img)
    (clipEmbed : MultiModal.Img → Emb) (urls : List String) (bs : ℕ)
    (hbs : 0 < bs) (hurls : urls ≠ []) :
    (MultiModal.get_image_embeddings httpGet decodeRGB clipEmbed urls bs).1
        = urls.map (fun u => (u, 5))
    ∧ (MultiModal.get_image_embeddings httpGet decodeRGB clipEmbed urls bs).2
        = some (urls.map (fun u => clipEmbed
            (((httpGet u 5).bind decodeRGB).getD
              ⟨224, 224, fun _ _ => (0, 0, 0)⟩)))
    ∧ ∃ rows, (MultiModal.get_image_embeddings httpGet decodeRGB clipEmbed
        urls bs).2 = some rows ∧ rows.length = urls.length := by
  have hfst : ∀ b : List String,
      (MultiModal.processBatch httpGet decodeRGB clipEmbed b).1
        = b.map (fun u => (u, 5)) := by
    intro b
    simp [MultiModal.processBatch, MultiModal.fetchImage, List.map_map,
      Function.comp_def]
  have hsnd : ∀ b : List String,
      (MultiModal.processBatch httpGet decodeRGB clipEmbed b).2
        = b.map (fun u => clipEmbed
            (((httpGet u 5).bind decodeRGB).getD
              ⟨224, 224, fun _ _ => (0, 0, 0)⟩)) := by
    intro b
    simp [MultiModal.processBatch, MultiModal.fetchImage, List.map_map,
      Function.comp_def, MultiModal.blankImage]
  have hemp : ((MultiModal.pyChunks bs urls).map
      (MultiModal.processBatch httpGet decodeRGB clipEmbed)).isEmpty
        = false := by
    have hne2 := MultiModal.pyChunks_ne_nil bs hbs urls hurls
    rcases hc : MultiModal.pyChunks bs urls with _ | ⟨b, bs2⟩
    · exact absurd hc hne2
    · simp
  have h1 : (MultiModal.get_image_embeddings httpGet decodeRGB clipEmbed
      urls bs).1 = urls.map (fun u => (u, 5)) := by
    simp only [MultiModal.get_image_embeddings, List.map_map,
      Function.comp_def, hfst]
    exact MultiModal.pyChunks_flatten_map _ bs hbs urls
  have h2 : (MultiModal.get_image_embeddings httpGet decodeRGB clipEmbed
      urls bs).2 = some (urls.map (fun u => clipEmbed
        (((httpGet u 5).bind decodeRGB).getD
          ⟨224, 224, fun _ _ => (0, 0, 0)⟩))) := by
    simp only [MultiModal.get_image_embeddings, List.map_map,
      Function.comp_def, hsnd, hemp, Bool.false_eq_true, if_false]
    congr 1
    exact MultiModal.pyChunks_flatten_map _ bs hbs urls
  refine ⟨h1, h2, urls.map (fun u => clipEmbed
      (((httpGet u 5).bind decodeRGB).getD
        ⟨224, 224, fun _ _ => (0, 0, 0)⟩)), h2, ?_⟩
  rw [List.length_map]

theorem C3_witness :
    (0 < 16 ∧ (["a", "b"] : List String) ≠ [])
    ∧ (MultiModal.get_image_embeddings (fun _ _ => (none : Option ℕ))
        (fun _ => none) (fun _ => (1 : ℕ)) ["a", "b"] 16).1
        = (["a", "b"] : List String).map (fun u => (u, 5)) :=
  ⟨⟨by decide, by decide⟩,
    (C3_get_image_embeddings_total (fun _ _ => (none : Option ℕ))
      (fun _ => none) (fun _ => (1 : ℕ)) ["a", "b"] 16 (by decide)
      (by decide)).1⟩

namespace MultiModal

/-!
Embedding of `Trainer.train` and `Evaluator.evaluate_pairwise`.

Embedding dictionaries/frames are incomplete maps `ℕ → Option V`: a `none`
lookup models the `KeyError` raised by a missing dict key or a missing
`DataFrame.loc` label, and in `evaluate_pairwise` also the explicit
`user_id not in self.user_embeddings` guard.  The torch model, its
optimizer, and the BPR loss/backward/step of one resolved training pair
are abstracted into a state transformer `step : M → V → V → V → M × ℚ`
returning the updated model/optimizer state and the recorded
`loss.item()`; `score` abstracts the forward pass of the dot-product
ranker in evaluation mode. -/

/-- A pair `(user_id, pos_pid, neg_pid)` has all three embeddings
available: the user id is a key of `user_embeddings` and both product ids
are labels of `product_embeddings`. -/
def resolvable {V : Type*} (userEmb : ℕ → Option V) (prodEmb : ℕ → Option V)
    (p : ℕ × ℕ × ℕ) : Bool :=
  (userEmb p.1).isSome && (prodEmb p.2.1).isSome && (prodEmb p.2.2).isSome

/-- The body of one epoch of `Trainer.train`: each pair is looked up
inside `try`, a `KeyError` (`none`) skips the pair via `continue`, and a
resolved pair performs one optimisation step and appends its loss. -/
def trainEpoch {V M : Type*} (step : M → V → V → V → M × ℚ)
    (userEmb prodEmb : ℕ → Option V) (init : M × List ℚ)
    (pairs : List (ℕ × ℕ × ℕ)) : M × List ℚ :=
  pairs.foldl (fun st p =>
    match userEmb p.1, prodEmb p.2.1, prodEmb p.2.2 with
    | some u, some pv, some nv =>
      let r := step st.1 u pv nv
      (r.1, st.2 ++ [r.2])
    | _, _, _ => st) init

/-- `Trainer.train`: `epochs` passes over the pair list, each starting
with an empty loss list; returns the final model state and the per-epoch
loss lists (whose means the notebook prints). -/
def train {V M : Type*} (step : M → V → V → V → M × ℚ)
    (userEmb prodEmb : ℕ → Option V) (m0 : M) (epochs : ℕ)
    (pairs : List (ℕ × ℕ × ℕ)) : M × List (List ℚ) :=
  (List.range epochs).foldl (fun acc _ =>
    let r := trainEpoch step userEmb prodEmb (acc.1, []) pairs
    (r.1, acc.2 ++ [r.2])) (m0, [])

/-- The `(correct, total)` counters of `Evaluator.evaluate_pairwise`:
pairs with a missing user embedding or a product `KeyError` are skipped
by `continue`, a resolved pair increments `total` and increments
`correct` when `pos_score > neg_score`. -/
def evalCounts {V : Type*} (score : V → V → ℚ)
    (userEmb prodEmb : ℕ → Option V) (pairs : List (ℕ × ℕ × ℕ)) : ℕ × ℕ :=
  pairs.foldl (fun ct p =>
    match userEmb p.1, prodEmb p.2.1, prodEmb p.2.2 with
    | some u, some pv, some nv =>
      (ct.1 + if score u nv < score u pv then 1 else 0, ct.2 + 1)
    | _, _, _ => ct) (0, 0)

/-- `Evaluator.evaluate_pairwise`: `correct / total if total > 0 else 0.0`. -/
def evaluate_pairwise {V : Type*} (score : V → V → ℚ)
    (userEmb prodEmb : ℕ → Option V) (pairs : List (ℕ × ℕ × ℕ)) : ℚ :=
  let ct := evalCounts score userEmb prodEmb pairs
  if 0 < ct.2 then (ct.1 : ℚ) / ct.2 else 0

theorem foldl_filter {σ β : Type*} (g : σ → β → σ) (p : β → Bool)
    (hg : ∀ st b, p b = false → g st b = st) :
    ∀ (l : List β) (init : σ), l.foldl g init = (l.filter p).foldl g init := by
  intro l
  induction l with
  | nil => intro init; rfl
  | cons x xs ih =>
    intro init
    rcases hx : p x with _ | _
    · rw [List.foldl_cons, hg init x hx, List.filter_cons_of_neg (by simp [hx]), ih]
    · rw [List.foldl_cons, List.filter_cons_of_pos hx, List.foldl_cons, ih]

theorem unresolved_skips_train {V M : Type*} (step : M → V → V → V → M × ℚ)
    (userEmb prodEmb : ℕ → Option V) (st : M × List ℚ) (p : ℕ × ℕ × ℕ)
    (hp : resolvable userEmb prodEmb p = false) :
    (match userEmb p.1, prodEmb p.2.1, prodEmb p.2.2 with
      | some u, some pv, some nv =>
        let r := step st.1 u pv nv
        ((r.1, st.2 ++ [r.2]) : M × List ℚ)
      | _, _, _ => st) = st := by
  unfold resolvable at hp
  rcases h1 : userEmb p.1 with _ | u <;> rcases h2 : prodEmb p.2.1 with _ | pv
    <;> rcases h3 : prodEmb p.2.2 with _ | nv <;> simp [h1, h2, h3] at hp ⊢

theorem unresolved_skips_eval {V : Type*} (score : V → V → ℚ)
    (userEmb prodEmb : ℕ → Option V) (ct : ℕ × ℕ) (p : ℕ × ℕ × ℕ)
    (hp : resolvable userEmb prodEmb p = false) :
    (match userEmb p.1, prodEmb p.2.1, prodEmb p.2.2 with
      | some u, some pv, some nv =>
        ((ct.1 + if score u nv < score u pv then 1 else 0, ct.2 + 1) : ℕ × ℕ)
      | _, _, _ => ct) = ct := by
  unfold resolvable at hp
  rcases h1 : userEmb p.1 with _ | u <;> rcases h2 : prodEmb p.2.1 with _ | pv
    <;> rcases h3 : prodEmb p.2.2 with _ | nv <;> simp [h1, h2, h3] at hp ⊢

theorem evalCounts_total {V : Type*} (score : V → V → ℚ)
    (userEmb prodEmb : ℕ → Option V) :
    ∀ (l : List (ℕ × ℕ × ℕ)) (ct : ℕ × ℕ),
      (∀ p ∈ l, resolvable userEmb prodEmb p = true) →
      (l.foldl (fun ct p =>
        match userEmb p.1, prodEmb p.2.1, prodEmb p.2.2 with
        | some u, some pv, some nv =>
          (ct.1 + if score u nv < score u pv then 1 else 0, ct.2 + 1)
        | _, _, _ => ct) ct).2 = ct.2 + l.length := by
  intro l
  induction l with
  | nil => intro ct _; simp
  | cons x xs ih =>
    intro ct hall
    have hx := hall x (by simp)
    unfold resolvable at hx
    rcases h1 : userEmb x.1 with _ | u <;> rcases h2 : prodEmb x.2.1 with _ | pv
      <;> rcases h3 : prodEmb x.2.2 with _ | nv <;>
        simp [h1, h2, h3] at hx
    rw [List.foldl_cons]
    simp only [h1, h2, h3]
    rw [ih _ (fun p hp => hall p (by simp [hp]))]
    simp only [List.length_cons]
    show ct.2 + 1 + xs.length = ct.2 + (xs.length + 1)
    omega

end MultiModal

/-- C4: in `Trainer.train` and `Evaluator.evaluate_pairwise`, every
(user, positive, negative) pair with a missing user embedding or a
product-embedding KeyError is skipped silently: training over the pair
list equals training over its resolvable sublist (so skipped pairs
contribute no loss term and no optimisation step), evaluation counters
ignore such pairs entirely, total counts exactly the resolvable pairs,
and both functions are total (no KeyError escapes). -/
theorem C4_missing_embeddings_skipped {V M : Type*}
    (step : M → V → V → V → M × ℚ) (score : V → V → ℚ)
    (userEmb prodEmb : ℕ → Option V) (m0 : M) (epochs : ℕ)
    (pairs : List (ℕ × ℕ × ℕ)) :
    MultiModal.train step userEmb prodEmb m0 epochs pairs
      = MultiModal.train step userEmb prodEmb m0 epochs
          (pairs.filter (MultiModal.resolvable userEmb prodEmb))
    ∧ MultiModal.evalCounts score userEmb prodEmb pairs
      = MultiModal.evalCounts score userEmb prodEmb
          (pairs.filter (MultiModal.resolvable userEmb prodEmb))
    ∧ (MultiModal.evalCounts score userEmb prodEmb pairs).2
      = (pairs.filter (MultiModal.resolvable userEmb prodEmb)).length
    ∧ MultiModal.evaluate_pairwise score userEmb prodEmb pairs
      = MultiModal.evaluate_pairwise score userEmb prodEmb
          (pairs.filter (MultiModal.resolvable userEmb prodEmb)) := by
  have hepoch : ∀ init : M × List ℚ,
      MultiModal.trainEpoch step userEmb prodEmb init pairs
        = MultiModal.trainEpoch step userEmb prodEmb init
            (pairs.filter (MultiModal.resolvable userEmb prodEmb)) := by
    intro init
    exact MultiModal.foldl_filter _ _
      (fun st b hb => MultiModal.unresolved_skips_train step userEmb prodEmb
        st b hb) pairs init
  have hcounts : MultiModal.evalCounts score userEmb prodEmb pairs
      = MultiModal.evalCounts score userEmb prodEmb
          (pairs.filter (MultiModal.resolvable userEmb prodEmb)) := by
    unfold MultiModal.evalCounts
    exact MultiModal.foldl_filter _ _
      (fun ct b hb => MultiModal.unresolved_skips_eval score userEmb prodEmb
        ct b hb) pairs (0, 0)
  refine ⟨?_, hcounts, ?_, ?_⟩
  · unfold MultiModal.train
    congr 1
    funext acc i
    rw [hepoch]
  · rw [hcounts]
    unfold MultiModal.evalCounts
    have := MultiModal.evalCounts_total score userEmb prodEmb
      (pairs.filter (MultiModal.resolvable userEmb prodEmb)) (0, 0)
      (fun p hp => List.of_mem_filter hp)
    rw [this]
    simp
  · unfold MultiModal.evaluate_pairwise
    rw [hcounts]

namespace MultiModal

/-!
Embedding of `prepare_pairwise_ranking_data_with_user_split(user_df,
product_df, test_ratio=0.2, num_negatives=1, seed=42)` — the per-user
train/test frame split.  A frame row is `(index, user_id)`: the pandas
row index plus the grouping column; the remaining columns play no role in
the split.  `groupby("user_id")` yields the distinct users in ascending
order, each group keeping the frame's row order; users with fewer than 5
rows are skipped; each kept group is shuffled by
`group.sample(frac=1, random_state=seed)`, modelled by an abstract
permutation `shuffle`; the first `int(len(group) * (1 - test_ratio))`
rows go to `train_df` and the rest to `test_df`, concatenated over users.
For `0 ≤ test_ratio ≤ 1` the argument of `int(...)` is non-negative, so
truncation equals `Nat.floor`.  When every user is skipped,
`pd.concat([])` raises `ValueError`: the embedding returns `none`.
The downstream `generate_pairs` sampling is not needed by any claim about
the returned frames and is not modelled. -/

/-- The group of a user: `user_df[user_df.user_id == u]` in row order. -/
def rowsOfUser (df : List (ℕ × ℕ)) (u : ℕ) : List (ℕ × ℕ) :=
  df.filter (fun r => r.2 = u)

/-- The distinct users in ascending order, as `groupby` iterates them. -/
def sortedUsers (df : List (ℕ × ℕ)) : List ℕ :=
  ((df.map Prod.snd).dedup).mergeSort (fun a b => decide (a ≤ b))

/-- The users kept by the `len(group) < 5: continue` guard. -/
def retainedUsers (df : List (ℕ × ℕ)) : List ℕ :=
  (sortedUsers df).filter (fun u => 5 ≤ (rowsOfUser df u).length)

/-- `int(len(group) * (1 - test_ratio))` for a non-negative argument. -/
def splitIdx (testRatio : ℚ) (n : ℕ) : ℕ := ⌊(n : ℚ) * (1 - testRatio)⌋₊

def prepare_pairwise_ranking_data_with_user_split
    (shuffle : List (ℕ × ℕ) → List (ℕ × ℕ)) (df : List (ℕ × ℕ))
    (testRatio : ℚ) : Option (List (ℕ × ℕ) × List (ℕ × ℕ)) :=
  let users := retainedUsers df
  if users.isEmpty then none
  else some
    (users.flatMap (fun u =>
        (shuffle (rowsOfUser df u)).take
          (splitIdx testRatio (rowsOfUser df u).length)),
      users.flatMap (fun u =>
        (shuffle (rowsOfUser df u)).drop
          (splitIdx testRatio (rowsOfUser df u).length)))

theorem rowsOfUser_snd (df : List (ℕ × ℕ)) (u : ℕ) :
    ∀ row ∈ rowsOfUser df u, row.2 = u := by
  intro row hrow
  have := List.of_mem_filter hrow
  simpa using this

theorem retainedUsers_nodup (df : List (ℕ × ℕ)) : (retainedUsers df).Nodup := by
  unfold retainedUsers sortedUsers
  apply List.Nodup.filter
  exact (List.mergeSort_perm _ _).symm.nodup (List.nodup_dedup _)

theorem mem_retainedUsers (df : List (ℕ × ℕ)) (u : ℕ) :
    u ∈ retainedUsers df
      ↔ u ∈ df.map Prod.snd ∧ 5 ≤ (rowsOfUser df u).length := by
  unfold retainedUsers sortedUsers
  rw [List.mem_filter, (List.mergeSort_perm _ _).mem_iff, List.mem_dedup]
  simp

theorem filter_user_of_ne {l : List (ℕ × ℕ)} {u2 u : ℕ}
    (hall : ∀ row ∈ l, row.2 = u2) (hne : u2 ≠ u) :
    l.filter (fun r => r.2 = u) = [] := by
  rw [List.filter_eq_nil_iff]
  intro row hrow
  simp [hall row hrow, hne]

theorem filter_user_of_eq {l : List (ℕ × ℕ)} {u : ℕ}
    (hall : ∀ row ∈ l, row.2 = u) :
    l.filter (fun r => r.2 = u) = l := by
  rw [List.filter_eq_self]
  intro row hrow
  simp [hall row hrow]

theorem flatMap_filter_user (f : ℕ → List (ℕ × ℕ))
    (hf : ∀ u2, ∀ row ∈ f u2, row.2 = u2) (u : ℕ) :
    ∀ users : List ℕ, users.Nodup →
      (users.flatMap f).filter (fun r => r.2 = u)
        = if u ∈ users then f u else [] := by
  intro users
  induction users with
  | nil => intro _; simp
  | cons v vs ih =>
    intro hnd
    rw [List.flatMap_cons, List.filter_append, ih hnd.of_cons]
    by_cases hvu : v = u
    · subst hvu
      rw [filter_user_of_eq (hf v)]
      have hnotin : v ∉ vs := (List.nodup_cons.mp hnd).1
      rw [if_neg hnotin, if_pos (List.mem_cons_self v vs)]
      simp
    · rw [filter_user_of_ne (hf v) hvu]
      by_cases hu : u ∈ vs
      · rw [if_pos hu, if_pos (List.mem_cons_of_mem v hu)]
        simp
      · have hmem : u ∉ v :: vs := by
          rw [List.mem_cons]
          push_neg
          exact ⟨fun h => hvu h.symm, hu⟩
        rw [if_neg hu, if_neg hmem]
        simp

end MultiModal

/-- C7: `prepare_pairwise_ranking_data_with_user_split` excludes every
user with fewer than 5 interactions from both returned frames; for every
retained user with n interactions the train and test rows are disjoint
and together are exactly that user's interactions, the train rows being
the first floor(n * (1 - test_ratio)) rows of the user's shuffled
interactions and the test rows the remainder. -/
theorem C7_user_split_partition (shuffle : List (ℕ × ℕ) → List (ℕ × ℕ))
    (hshuffle : ∀ l, (shuffle l).Perm l) (df : List (ℕ × ℕ)) (testRatio : ℚ)
    (hr0 : 0 ≤ testRatio) (hr1 : testRatio ≤ 1)
    (hidx : (df.map Prod.fst).Nodup) (tr te : List (ℕ × ℕ))
    (hres : MultiModal.prepare_pairwise_ranking_data_with_user_split shuffle
      df testRatio = some (tr, te)) :
    (∀ u, (MultiModal.rowsOfUser df u).length < 5 →
        tr.filter (fun r => r.2 = u) = [] ∧ te.filter (fun r => r.2 = u) = [])
    ∧ (∀ u, 5 ≤ (MultiModal.rowsOfUser df u).length →
        tr.filter (fun r => r.2 = u)
            = (shuffle (MultiModal.rowsOfUser df u)).take
                (MultiModal.splitIdx testRatio
                  (MultiModal.rowsOfUser df u).length)
          ∧ te.filter (fun r => r.2 = u)
            = (shuffle (MultiModal.rowsOfUser df u)).drop
                (MultiModal.splitIdx testRatio
                  (MultiModal.rowsOfUser df u).length)
          ∧ (tr.filter (fun r => r.2 = u)
              ++ te.filter (fun r => r.2 = u)).Perm
              (MultiModal.rowsOfUser df u)
          ∧ ∀ row ∈ tr.filter (fun r => r.2 = u),
              row ∉ te.filter (fun r => r.2 = u)) := by
  unfold MultiModal.prepare_pairwise_ranking_data_with_user_split at hres
  by_cases hemp : (MultiModal.retainedUsers df).isEmpty
  · rw [if_pos hemp] at hres
    exact absurd hres (by simp)
  · rw [if_neg hemp] at hres
    have hpair := Option.some.inj hres
    have htr : tr = (MultiModal.retainedUsers df).flatMap (fun u =>
        (shuffle (MultiModal.rowsOfUser df u)).take
          (MultiModal.splitIdx testRatio
            (MultiModal.rowsOfUser df u).length)) :=
      (congrArg Prod.fst hpair).symm
    have hte : te = (MultiModal.retainedUsers df).flatMap (fun u =>
        (shuffle (MultiModal.rowsOfUser df u)).drop
          (MultiModal.splitIdx testRatio
            (MultiModal.rowsOfUser df u).length)) :=
      (congrArg Prod.snd hpair).symm
    have hsnd : ∀ u2 : ℕ, ∀ row ∈ shuffle (MultiModal.rowsOfUser df u2),
        row.2 = u2 := by
      intro u2 row hrow
      exact MultiModal.rowsOfUser_snd df u2 row
        ((hshuffle (MultiModal.rowsOfUser df u2)).mem_iff.mp hrow)
    have hftr := fun u => MultiModal.flatMap_filter_user
      (fun u2 => (shuffle (MultiModal.rowsOfUser df u2)).take
        (MultiModal.splitIdx testRatio (MultiModal.rowsOfUser df u2).length))
      (fun u2 row hrow => hsnd u2 row
        (List.mem_of_mem_take hrow)) u
      (MultiModal.retainedUsers df) (MultiModal.retainedUsers_nodup df)
    have hfte := fun u => MultiModal.flatMap_filter_user
      (fun u2 => (shuffle (MultiModal.rowsOfUser df u2)).drop
        (MultiModal.splitIdx testRatio (MultiModal.rowsOfUser df u2).length))
      (fun u2 row hrow => hsnd u2 row
        (List.mem_of_mem_drop hrow)) u
      (MultiModal.retainedUsers df) (MultiModal.retainedUsers_nodup df)
    constructor
    · intro u hu
      have hmem : u ∉ MultiModal.retainedUsers df := by
        rw [MultiModal.mem_retainedUsers]
        push_neg
        intro _
        omega
      constructor
      · rw [htr, hftr u, if_neg hmem]
      · rw [hte, hfte u, if_neg hmem]
    · intro u hu
      have hne : MultiModal.rowsOfUser df u ≠ [] := by
        intro h
        rw [h] at hu
        simp at hu
      have hmem : u ∈ MultiModal.retainedUsers df := by
        rw [MultiModal.mem_retainedUsers]
        refine ⟨?_, hu⟩
        obtain ⟨row, hrow⟩ := List.exists_mem_of_ne_nil _ hne
        rw [List.mem_map]
        exact ⟨row, List.mem_of_mem_filter hrow,
          MultiModal.rowsOfUser_snd df u row hrow⟩
      have h1 : tr.filter (fun r => r.2 = u)
          = (shuffle (MultiModal.rowsOfUser df u)).take
              (MultiModal.splitIdx testRatio
                (MultiModal.rowsOfUser df u).length) := by
        rw [htr, hftr u, if_pos hmem]
      have h2 : te.filter (fun r => r.2 = u)
          = (shuffle (MultiModal.rowsOfUser df u)).drop
              (MultiModal.splitIdx testRatio
                (MultiModal.rowsOfUser df u).length) := by
        rw [hte, hfte u, if_pos hmem]
      have hnodup : (shuffle (MultiModal.rowsOfUser df u)).Nodup := by
        apply (hshuffle (MultiModal.rowsOfUser df u)).symm.nodup
        apply List.Nodup.filter
        exact hidx.of_map Prod.fst
      refine ⟨h1, h2, ?_, ?_⟩
      · rw [h1, h2, List.take_append_drop]
        exact hshuffle (MultiModal.rowsOfUser df u)
      · rw [h1, h2]
        exact List.disjoint_take_drop hnodup le_rfl

unseal List.mergeSort in
theorem retainedUsers_concrete_eval :
    MultiModal.retainedUsers [(0, 1), (1, 1), (2, 1), (3, 1), (4, 1)] = [1] := by
  decide

theorem C7_witness :
    ((0 : ℚ) ≤ 0 ∧ (0 : ℚ) ≤ 1
      ∧ (([(0, 1), (1, 1), (2, 1), (3, 1), (4, 1)] : List (ℕ × ℕ)).map
          Prod.fst).Nodup)
    ∧ (([(0, 1), (1, 1), (2, 1), (3, 1), (4, 1)] : List (ℕ × ℕ)).filter
          (fun r => r.2 = 1)
        ++ ([] : List (ℕ × ℕ)).filter (fun r => r.2 = 1)).Perm
        (MultiModal.rowsOfUser [(0, 1), (1, 1), (2, 1), (3, 1), (4, 1)] 1) := by
  have h2 : MultiModal.splitIdx 0 5 = 5 := by
    unfold MultiModal.splitIdx
    norm_num
  have h3 : MultiModal.rowsOfUser [(0, 1), (1, 1), (2, 1), (3, 1), (4, 1)] 1
      = [(0, 1), (1, 1), (2, 1), (3, 1), (4, 1)] := by decide
  have hres : MultiModal.prepare_pairwise_ranking_data_with_user_split
      (fun l => l) [(0, 1), (1, 1), (2, 1), (3, 1), (4, 1)] 0
      = some ([(0, 1), (1, 1), (2, 1), (3, 1), (4, 1)], []) := by
    unfold MultiModal.prepare_pairwise_ranking_data_with_user_split
    rw [retainedUsers_concrete_eval]
    simp only [List.flatMap_cons, List.flatMap_nil, List.append_nil, h3,
      List.isEmpty_cons]
    rw [show ([(0, 1), (1, 1), (2, 1), (3, 1), (4, 1)] : List (ℕ × ℕ)).length
      = 5 from rfl, h2]
    decide
  have h := C7_user_split_partition (fun l => l) (fun l => List.Perm.refl l)
    [(0, 1), (1, 1), (2, 1), (3, 1), (4, 1)] 0 (by norm_num) (by norm_num)
    (by decide) _ _ hres
  exact ⟨⟨by norm_num, by norm_num, by decide⟩, (h.2 1 (by decide)).2.2.1⟩

namespace Chapter2Eval

/-!
Embedding of `evaluate_recommendations(test_data, user_recommendations,
top_k=5)` from
`src/tutorials/Chapter2/From_Traditional_to_LLM_Recommendation_Systems.ipynb`.

`test_data` rows are `(userId, movieId, rating)`; `user_recommendations`
is the dict items `(userId, recommended movieIds)` in iteration order.
For each user: the positives are the test rows of that user with rating
≥ 4; a user with no positives is skipped entirely; otherwise recall and
precision samples are appended, and `sklearn.metrics.ndcg_score` — here
the parameter `ndcgFn`, with `none` modelling any raised exception — is
called inside `try/except Exception`, appending an NDCG sample only on
success.  The trailing catalog-coverage and entropy metrics use the
global `movies` frame (a parameter here) and `math.log2` (the parameter
`log2fn`); `np.mean([])` (a float NaN) and the unguarded division by an
empty catalog are modelled as the junk value `0`, which no claim
inspects. -/

/-- The user's positives: `test_data[(userId == uid) & (rating >= 4)].movieId`. -/
def userPositive (testData : List (ℕ × ℕ × ℕ)) (uid : ℕ) : List ℕ :=
  (testData.filter (fun t => decide (t.1 = uid ∧ 4 ≤ t.2.2))).map
    (fun t => t.2.1)

/-- The 0/1 relevance vector over the recommendations, padded with zeros
up to `top_k` when shorter. -/
def relevanceVec (positives recs : List ℕ) (topk : ℕ) : List ℕ :=
  let rel := recs.map (fun m => if m ∈ positives then 1 else 0)
  rel ++ List.replicate (topk - rel.length) 0

/-- `list(range(top_k, 0, -1))`. -/
def predictedScoresTop (topk : ℕ) : List ℕ :=
  (List.range topk).map (fun i => topk - i)

structure EvalState where
  recallScores : List ℚ
  precisionScores : List ℚ
  ndcgScores : List ℚ
  allRecommended : List ℕ
deriving DecidableEq, Repr

/-- One iteration of the `for user_id, recommendations in
user_recommendations.items()` loop. -/
def processUser (ndcgFn : List ℕ → List ℕ → ℕ → Option ℚ)
    (testData : List (ℕ × ℕ × ℕ)) (topk : ℕ) (st : EvalState)
    (ur : ℕ × List ℕ) : EvalState :=
  let positives := userPositive testData ur.1
  if positives = [] then st
  else
    let relevant : ℕ := ((ur.2).toFinset ∩ positives.toFinset).card
    let relevance := relevanceVec positives ur.2 topk
    { recallScores := st.recallScores ++ [(relevant : ℚ) / positives.length]
      precisionScores := st.precisionScores ++ [(relevant : ℚ) / topk]
      ndcgScores :=
        match ndcgFn relevance (predictedScoresTop topk) relevance.length with
        | some v => st.ndcgScores ++ [v]
        | none => st.ndcgScores
      allRecommended := st.allRecommended ++ ur.2 }

/-- The whole metric-collection loop. -/
def evalLoop (ndcgFn : List ℕ → List ℕ → ℕ → Option ℚ)
    (testData : List (ℕ × ℕ × ℕ)) (topk : ℕ)
    (userRecs : List (ℕ × List ℕ)) : EvalState :=
  userRecs.foldl (processUser ndcgFn testData topk) ⟨[], [], [], []⟩

structure RecMetrics where
  recallK : ℚ
  precisionK : ℚ
  ndcgK : ℚ
  catalogCoverage : ℚ
  entropyDiversity : ℚ
  totalUsers : ℕ
deriving DecidableEq, Repr

def evaluate_recommendations (ndcgFn : List ℕ → List ℕ → ℕ → Option ℚ)
    (log2fn : ℚ → ℚ) (testData : List (ℕ × ℕ × ℕ)) (movies : List ℕ)
    (userRecs : List (ℕ × List ℕ)) (topk : ℕ) : RecMetrics :=
  let st := evalLoop ndcgFn testData topk userRecs
  let totalCatalog := movies.dedup.length
  let coverage : ℚ := (st.allRecommended.dedup.length : ℚ) / totalCatalog
  let freqs := st.allRecommended.dedup.map (fun x => st.allRecommended.count x)
  let totalRecs : ℚ := (freqs.sum : ℚ)
  let entropy : ℚ := -((freqs.map
    (fun f => ((f : ℚ) / totalRecs) * log2fn ((f : ℚ) / totalRecs))).sum)
  let normEntropy : ℚ :=
    if 0 < totalCatalog then entropy / log2fn totalCatalog else 0
  if st.recallScores = [] then ⟨0, 0, 0, 0, 0, 0⟩
  else ⟨pyMean st.recallScores, pyMean st.precisionScores,
    pyMean st.ndcgScores, coverage, normEntropy, userRecs.length⟩

/-- The users that are not skipped by the empty-positives guard. -/
def processedUsers (testData : List (ℕ × ℕ × ℕ))
    (userRecs : List (ℕ × List ℕ)) : List (ℕ × List ℕ) :=
  userRecs.filter (fun ur => decide (userPositive testData ur.1 ≠ []))

/-- `len(set(recommendations) & set(user_positive))` for one user. -/
def hitCount (testData : List (ℕ × ℕ × ℕ)) (ur : ℕ × List ℕ) : ℕ :=
  ((ur.2).toFinset ∩ (userPositive testData ur.1).toFinset).card

/-- The `ndcg_score` call made for one processed user. -/
def ndcgAttempt (ndcgFn : List ℕ → List ℕ → ℕ → Option ℚ)
    (testData : List (ℕ × ℕ × ℕ)) (topk : ℕ) (ur : ℕ × List ℕ) : Option ℚ :=
  ndcgFn (relevanceVec (userPositive testData ur.1) ur.2 topk)
    (predictedScoresTop topk)
    (relevanceVec (userPositive testData ur.1) ur.2 topk).length

theorem evalLoop_characterization (ndcgFn : List ℕ → List ℕ → ℕ → Option ℚ)
    (testData : List (ℕ × ℕ × ℕ)) (topk : ℕ) :
    ∀ (l : List (ℕ × List ℕ)) (st : EvalState),
      l.foldl (processUser ndcgFn testData topk) st
        = ⟨st.recallScores ++ (processedUsers testData l).map
              (fun ur => (hitCount testData ur : ℚ)
                / (userPositive testData ur.1).length),
            st.precisionScores ++ (processedUsers testData l).map
              (fun ur => (hitCount testData ur : ℚ) / topk),
            st.ndcgScores ++ (processedUsers testData l).filterMap
              (ndcgAttempt ndcgFn testData topk),
            st.allRecommended ++ (processedUsers testData l).flatMap
              (fun ur => ur.2)⟩ := by
  intro l
  induction l with
  | nil =>
    intro st
    simp [processedUsers]
  | cons ur l ih =>
    intro st
    rw [List.foldl_cons]
    by_cases hpos : userPositive testData ur.1 = []
    · have hskip : processUser ndcgFn testData topk st ur = st := by
        unfold processUser
        rw [if_pos hpos]
      have hproc : processedUsers testData (ur :: l)
          = processedUsers testData l := by
        unfold processedUsers
        rw [List.filter_cons_of_neg (by simp [hpos])]
      rw [hskip, hproc, ih st]
    · have hproc : processedUsers testData (ur :: l)
          = ur :: processedUsers testData l := by
        unfold processedUsers
        rw [List.filter_cons_of_pos (by simp [hpos])]
      rw [ih, hproc]
      unfold processUser
      rw [if_neg hpos]
      rcases hnd : ndcgFn (relevanceVec (userPositive testData ur.1) ur.2 topk)
          (predictedScoresTop topk)
          (relevanceVec (userPositive testData ur.1) ur.2 topk).length
          with _ | v
      · simp only [hnd, List.map_cons, List.filterMap_cons, List.flatMap_cons,
          hitCount, ndcgAttempt, hnd, List.append_assoc]
        constructor
      · simp only [hnd, List.map_cons, List.filterMap_cons, List.flatMap_cons,
          hitCount, ndcgAttempt, hnd, List.append_assoc]
        constructor

end Chapter2Eval

/-- C8: in `evaluate_recommendations`, a user whose `ndcg_score` call
raises is skipped silently: the exception is caught, the user contributes
no NDCG sample (the NDCG samples are exactly the successful calls over
the processed users), the user's already-appended recall and precision
samples are retained (they depend only on the data, not on the scorer),
and the function still returns a metrics record, its NDCG field averaging
only the successful samples. -/
theorem C8_ndcg_failures_skipped (ndcgFn : List ℕ → List ℕ → ℕ → Option ℚ)
    (log2fn : ℚ → ℚ) (testData : List (ℕ × ℕ × ℕ)) (movies : List ℕ)
    (userRecs : List (ℕ × List ℕ)) (topk : ℕ) :
    Chapter2Eval.evalLoop ndcgFn testData topk userRecs
      = ⟨(Chapter2Eval.processedUsers testData userRecs).map
            (fun ur => (Chapter2Eval.hitCount testData ur : ℚ)
              / (Chapter2Eval.userPositive testData ur.1).length),
          (Chapter2Eval.processedUsers testData userRecs).map
            (fun ur => (Chapter2Eval.hitCount testData ur : ℚ) / topk),
          (Chapter2Eval.processedUsers testData userRecs).filterMap
            (Chapter2Eval.ndcgAttempt ndcgFn testData topk),
          (Chapter2Eval.processedUsers testData userRecs).flatMap
            (fun ur => ur.2)⟩
    ∧ (Chapter2Eval.evaluate_recommendations ndcgFn log2fn testData movies
        userRecs topk).ndcgK
      = if Chapter2Eval.processedUsers testData userRecs = [] then 0
        else pyMean ((Chapter2Eval.processedUsers testData userRecs).filterMap
          (Chapter2Eval.ndcgAttempt ndcgFn testData topk)) := by
  have hloop := Chapter2Eval.evalLoop_characterization ndcgFn testData topk
    userRecs ⟨[], [], [], []⟩
  constructor
  · unfold Chapter2Eval.evalLoop
    rw [hloop]
    simp
  · unfold Chapter2Eval.evaluate_recommendations
    unfold Chapter2Eval.evalLoop
    rw [hloop]
    simp only [List.nil_append]
    by_cases hemp : Chapter2Eval.processedUsers testData userRecs = []
    · rw [if_pos hemp]
      rw [if_pos (by rw [hemp]; simp)]
    · rw [if_neg hemp]
      rw [if_neg (by simp [hemp])]
